import Mathlib

/-!
# Verification of the audio-analysis tool handler

Shallow embedding of `src/tool-handlers/analyze-audio.ts` (an MCP tool
handler that forwards audio payloads to a remote completion API with a
primary → backup → discovered-free fallback chain).

External collaborators (the `fetch` HTTP client, the `fs` module, the
`path` module's `resolve`, the WHATWG `URL` parser, the OpenAI SDK client
and the process environment) are modelled as fields of an `Env` record:
each remote or platform call is a pure lookup in `Env`, and the handler
additionally returns the ordered list of external calls it issued
(`Event` trace), so that call-count and short-circuit properties can be
stated.  JavaScript strings are Lean `String`s, byte buffers are
`List Nat`, `undefined`/absent values are `Option`, and JS string
truthiness (empty string is falsy) is made explicit via `strTruthy`.
-/

set_option autoImplicit false

namespace AnalyzeAudio

/-- Bytes of a Node `Buffer`. -/
abbrev Bytes := List Nat

/-- Source constant: `const DEFAULT_AUDIO_MODEL = 'mistralai/voxtral-small-24b-2507'`. -/
def DEFAULT_AUDIO_MODEL : String := "mistralai/voxtral-small-24b-2507"

/-- Code of `ErrorCode.InvalidParams` of the MCP SDK (JSON-RPC invalid params). -/
def ErrorCode_InvalidParams : Int := -32602

/-- Token-usage stats object (`usage` of a completion response). -/
structure Usage where
  prompt_tokens : Nat
  completion_tokens : Nat
  total_tokens : Nat
deriving DecidableEq, Repr

/-- Zeroed usage: `{ prompt_tokens: 0, completion_tokens: 0, total_tokens: 0 }`. -/
def zeroUsage : Usage := ⟨0, 0, 0⟩

/-- A successful completion response, as consumed by the handler:
`id`, `model`, `choices[0].message.content` (possibly null) and `usage`. -/
structure Completion where
  id : String
  model : String
  content : Option String
  usage : Usage
deriving DecidableEq, Repr

/-- A `fetch` response: HTTP status, status text and body bytes. -/
structure FetchResponse where
  status : Nat
  statusText : String
  body : Bytes
deriving DecidableEq, Repr

/-- Field `response.ok` of the fetch API: status in the success range 200–299. -/
def FetchResponse.ok (r : FetchResponse) : Bool :=
  200 ≤ r.status && r.status ≤ 299

/-- One external call issued by the handler. -/
inductive Event where
  | fetchUrl (url : String)
  | readFileEv (path : String)
  | listModelsEv
  | completionEv (model : String)
deriving DecidableEq, Repr

/-- The handler's environment: outcomes of every external call it could
make, plus the ambient process state it reads. -/
structure Env where
  /-- Whether `new URL(s)` succeeds (the WHATWG URL parser). -/
  urlParses : String → Bool
  /-- Call `fetch(url)`: network rejection, or a response. -/
  httpFetch : String → Except String FetchResponse
  /-- Call `fs.promises.readFile(path)`: I/O error or file bytes. -/
  readFile : String → Except String Bytes
  /-- Value of `process.cwd()`. -/
  cwd : String
  /-- Behaviour of `path.resolve(cwd, p)` of the external path module. -/
  resolvePath : String → String → String
  /-- Value of `process.env.OPENROUTER_DEFAULT_MODEL_AUDIO_BACKUP` (unset = none). -/
  backupEnv : Option String
  /-- Call `openai.models.list()`: rejection, or a response whose `data` may be
  missing (`none`) or a list of model ids. -/
  listModels : Except String (Option (List String))
  /-- Call `openai.chat.completions.create({model, ...})`, keyed by model id
  (the message content is identical across attempts of one invocation). -/
  chatComplete : String → Except String Completion

/-- The tool arguments: `{ audio_url: string; model?: string }`.  Both are
`Option` because presence is only checked at runtime. -/
structure AnalyzeAudioToolRequest where
  audio_url : Option String
  model : Option String
deriving DecidableEq, Repr

/-- JS truthiness for an optional string: `undefined` and `''` are falsy. -/
def strTruthy : Option String → Option String
  | some s => if s = "" then none else some s
  | none => none

/-- JS `a || b` for an optional string `a` and a string `b`. -/
def jsOr (a : Option String) (b : String) : String :=
  (strTruthy a).getD b

/-- Model selection `args.model || defaultModel || DEFAULT_AUDIO_MODEL` (line 161, and
again in the outer catch at line 287). -/
def selectModel (reqModel defaultModel : Option String) : String :=
  jsOr reqModel (jsOr defaultModel DEFAULT_AUDIO_MODEL)

/-- Source `normalizePath`: `filePath.replace(/\\/g, '/')` (character-wise map,
written over the code-point list so that it evaluates by reduction). -/
def normalizePath (filePath : String) : String :=
  ⟨filePath.toList.map fun c => if c = '\\' then '/' else c⟩

/-- Check `path.isAbsolute` on POSIX: the path starts with `/`. -/
def pathIsAbsolute (p : String) : Bool :=
  match p.toList with
  | '/' :: _ => true
  | _ => false

/-- JS `s.toLowerCase()` for the ASCII identifiers and extensions this
program compares (character-wise `Char.toLower`). -/
def lowerStr (s : String) : String :=
  ⟨s.toList.map Char.toLower⟩

/-- JS `s.includes(sub)`: substring containment. -/
def containsStr (s sub : String) : Bool :=
  decide (sub.toList <:+: s.toList)

/-- The suffix of a character list starting at its last `.`, if any. -/
def lastDotSplit : List Char → Option (List Char)
  | [] => none
  | c :: cs =>
    match lastDotSplit cs with
    | some r => some r
    | none => if c = '.' then some (c :: cs) else none

/-- Node `path.extname` on POSIX: the extension of the final path segment,
from its last `.` to the end; empty when the segment has no dot, when the
only dot is its first character (hidden files), or for `..`. -/
def posixExtname (p : String) : String :=
  let noTrail := (p.toList.reverse.dropWhile (· = '/')).reverse
  let seg := (noTrail.reverse.takeWhile (· ≠ '/')).reverse
  if seg = ['.', '.'] then ""
  else
    match lastDotSplit seg with
    | none => ""
    | some suf => if suf.length = seg.length then "" else ⟨suf⟩

/-- The detected audio container format. -/
inductive AudioFormat where
  | wav
  | mp3
deriving DecidableEq, Repr

/-- Source `detectAudioFormat(buffer, filename)` (lines 62–78).  Out-of-range
buffer reads are `undefined` in JS: `undefined === byte` is false and
`undefined & 0xE0` coerces to `0`, modelled by `Option` access with
`getD 0` for the bitwise test. -/
def detectAudioFormat (buffer : Bytes) (filename : String) : AudioFormat :=
  if buffer[0]? = some 0x52 ∧ buffer[1]? = some 0x49 ∧
      buffer[2]? = some 0x46 ∧ buffer[3]? = some 0x46 then
    .wav
  else if buffer[0]? = some 0xFF ∧ (buffer[1]?).getD 0 &&& 0xE0 = 0xE0 then
    .mp3
  else
    let ext := lowerStr (posixExtname filename)
    if ext = ".wav" then .wav
    else if ext = ".mp3" then .mp3
    else .wav

/-- Source `isUrl(path)`: `new URL(path)` succeeds. -/
def isUrl (env : Env) (path : String) : Bool :=
  env.urlParses path

/-- Source `fetchAudio(audioPath)` (lines 37–57), with its issued calls. -/
def fetchAudio (env : Env) (audioPath : String) :
    Except String Bytes × List Event :=
  if isUrl env audioPath then
    match env.httpFetch audioPath with
    | .error e => (.error e, [.fetchUrl audioPath])
    | .ok response =>
      if response.ok then (.ok response.body, [.fetchUrl audioPath])
      else (.error ("Failed to fetch audio: " ++ response.statusText),
            [.fetchUrl audioPath])
  else
    let normalizedPath := normalizePath audioPath
    let resolvedPath :=
      if pathIsAbsolute normalizedPath then normalizedPath
      else env.resolvePath env.cwd normalizedPath
    (env.readFile resolvedPath, [.readFileEv resolvedPath])

/-- Source `findSuitableFreeAudioModel(openai)` (lines 83–109), with its issued
calls.  A listing rejection is swallowed; the fallback is
`process.env.OPENROUTER_DEFAULT_MODEL_AUDIO_BACKUP || DEFAULT_AUDIO_MODEL`. -/
def findSuitableFreeAudioModel (env : Env) : String × List Event :=
  let fallbackModel := jsOr env.backupEnv DEFAULT_AUDIO_MODEL
  match env.listModels with
  | .error _ => (fallbackModel, [.listModelsEv])
  | .ok none => (fallbackModel, [.listModelsEv])
  | .ok (some ids) =>
    if ids.isEmpty then (fallbackModel, [.listModelsEv])
    else
      let freeAudioModels := ids.filter fun id =>
        let modelId := lowerStr id
        containsStr modelId "free" &&
          (containsStr modelId "audio" || containsStr modelId "voxtral" ||
            containsStr modelId "whisper")
      match freeAudioModels with
      | m :: _ => (m, [.listModelsEv])
      | [] => (fallbackModel, [.listModelsEv])

/-- The payload of the tool's uniform result envelope, i.e. the object
serialized into the text content: a success `{id, analysis, model, usage}`
or a failure `{error, model, usage}`. -/
inductive Payload where
  | success (id : String) (analysis : String) (model : String) (usage : Usage)
  | failure (error : String) (model : String) (usage : Usage)
deriving DecidableEq, Repr

/-- What `handleAnalyzeAudio` does at its boundary: either throws an
`McpError` (which the outer catch at lines 277–279 rethrows, so it
escapes as a protocol fault), or returns an envelope, flagged `isError`
for the soft-failure shape of lines 281–293. -/
inductive HandlerOutcome where
  | mcpFault (code : Int) (message : String)
  | result (payload : Payload) (isError : Bool)
deriving DecidableEq, Repr

/-- The success envelope built from a completion (lines 175–187 and the
identical blocks of the backup and free branches):
`analysis = completion.choices[0].message.content || ''`. -/
def successResult (c : Completion) : HandlerOutcome :=
  .result (.success c.id (c.content.getD "") c.model c.usage) false

/-- The soft-failure envelope of the outer catch (lines 281–293):
`{error, model: args.model || defaultModel || DEFAULT_AUDIO_MODEL,
usage: zeroed}`, with `isError: true`. -/
def errorEnvelope (msg : String) (req : AnalyzeAudioToolRequest)
    (defaultModel : Option String) : HandlerOutcome :=
  .result (.failure msg (selectModel req.model defaultModel) zeroUsage) true

/-- Guard `if (backupModel && backupModel !== model)` (line 191): the backup
model when the environment variable is truthy and differs from the
primary. -/
def backupCandidate (env : Env) (model : String) : Option String :=
  match strTruthy env.backupEnv with
  | some b => if b ≠ model then some b else none
  | none => none

/-- The free-model attempt of the no-distinct-backup branch
(lines 246–273): discover, invoke only if truthy and distinct from the
primary, else rethrow the primary's error (caught by the outer catch). -/
def tryFreeNoBackup (env : Env) (req : AnalyzeAudioToolRequest)
    (defaultModel : Option String) (model primaryError : String) :
    HandlerOutcome × List Event :=
  let (freeModel, trF) := findSuitableFreeAudioModel env
  if freeModel ≠ "" ∧ freeModel ≠ model then
    match env.chatComplete freeModel with
    | .ok completion =>
      (successResult completion, trF ++ [.completionEv freeModel])
    | .error freeError =>
      (errorEnvelope freeError req defaultModel, trF ++ [.completionEv freeModel])
  else
    (errorEnvelope primaryError req defaultModel, trF)

/-- The free-model attempt after a failed backup attempt (lines 216–243):
discover, invoke only if truthy and distinct from both primary and
backup, else rethrow the backup's error (caught by the outer catch). -/
def tryFreeAfterBackup (env : Env) (req : AnalyzeAudioToolRequest)
    (defaultModel : Option String) (model backupModel backupError : String) :
    HandlerOutcome × List Event :=
  let (freeModel, trF) := findSuitableFreeAudioModel env
  if freeModel ≠ "" ∧ freeModel ≠ model ∧ freeModel ≠ backupModel then
    match env.chatComplete freeModel with
    | .ok completion =>
      (successResult completion, trF ++ [.completionEv freeModel])
    | .error freeError =>
      (errorEnvelope freeError req defaultModel, trF ++ [.completionEv freeModel])
  else
    (errorEnvelope backupError req defaultModel, trF)

/-- The fallback chain entered when the primary attempt failed
(lines 188–274): try the backup when truthy and distinct, else go
straight to the free-model attempt carrying the primary's error. -/
def runFallback (env : Env) (req : AnalyzeAudioToolRequest)
    (defaultModel : Option String) (model primaryError : String) :
    HandlerOutcome × List Event :=
  match backupCandidate env model with
  | some backupModel =>
    match env.chatComplete backupModel with
    | .ok completion =>
      (successResult completion, [.completionEv backupModel])
    | .error backupError =>
      let r := tryFreeAfterBackup env req defaultModel model backupModel backupError
      (r.1, Event.completionEv backupModel :: r.2)
  | none => tryFreeNoBackup env req defaultModel model primaryError

/-- The primary attempt and its fallback (lines 160–275). -/
def runCompletion (env : Env) (req : AnalyzeAudioToolRequest)
    (defaultModel : Option String) : HandlerOutcome × List Event :=
  let model := selectModel req.model defaultModel
  match env.chatComplete model with
  | .ok completion =>
    (successResult completion, [.completionEv model])
  | .error primaryError =>
    let r := runFallback env req defaultModel model primaryError
    (r.1, Event.completionEv model :: r.2)

/-- Source `handleAnalyzeAudio(request, openai, defaultModel)` (lines 114–295).
Validation throws `McpError(InvalidParams)` which the outer catch
rethrows; any other thrown error reaches the outer catch and becomes the
soft-failure envelope.  The detected format and base64 payload only shape
the outbound message content, which `Env.chatComplete` abstracts over.
The second component is the ordered list of external calls issued. -/
def handleAnalyzeAudio (env : Env) (req : AnalyzeAudioToolRequest)
    (defaultModel : Option String) : HandlerOutcome × List Event :=
  match strTruthy req.audio_url with
  | none => (.mcpFault ErrorCode_InvalidParams "audio_url parameter is required", [])
  | some audioUrl =>
    match fetchAudio env audioUrl with
    | (.error e, tr) => (errorEnvelope e req defaultModel, tr)
    | (.ok buffer, tr) =>
      let _format := detectAudioFormat buffer audioUrl
      let r := runCompletion env req defaultModel
      (r.1, tr ++ r.2)

/-- The models of the completion calls in a trace, in issue order. -/
def completionModels (tr : List Event) : List String :=
  tr.filterMap fun e =>
    match e with
    | .completionEv m => some m
    | _ => none

/-- Count of model-listing calls in a trace. -/
def countListings (tr : List Event) : Nat :=
  tr.countP fun e => e = Event.listModelsEv

/-- Count of payload fetches (HTTP get or file read) in a trace. -/
def countFetches (tr : List Event) : Nat :=
  tr.countP fun e =>
    match e with
    | .fetchUrl _ => true
    | .readFileEv _ => true
    | _ => false

/-- The explicit candidate models of one invocation: the primary
(request model, else caller default, else built-in default), then the
configured backup when it is truthy and distinct from the primary. -/
def explicitCandidates (env : Env) (req : AnalyzeAudioToolRequest)
    (defaultModel : Option String) : List String :=
  let model := selectModel req.model defaultModel
  model ::
    (match backupCandidate env model with
     | some b => [b]
     | none => [])

/-- The full ordered, de-duplicated candidate list: explicit candidates
followed by the discovered free model when truthy and not already
present. -/
def candidateList (env : Env) (req : AnalyzeAudioToolRequest)
    (defaultModel : Option String) : List String :=
  let ec := explicitCandidates env req defaultModel
  let free := (findSuitableFreeAudioModel env).1
  ec ++ (if free ≠ "" ∧ free ∉ ec then [free] else [])

/-- The `model` field of a soft-failure envelope, when the outcome is one. -/
def failureModel : HandlerOutcome → Option String
  | .result (.failure _ m _) _ => some m
  | _ => none

/-- Whether the model-listing call failed or produced no entries
(rejected, `data` missing, or `data` empty). -/
def listingEmpty (env : Env) : Bool :=
  match env.listModels with
  | .error _ => true
  | .ok none => true
  | .ok (some ids) => ids.isEmpty

/-- The path a non-URL reference is read from: backslashes normalized,
then resolved against the current working directory when not absolute. -/
def resolvedTarget (env : Env) (ref : String) : String :=
  let np := normalizePath ref
  if pathIsAbsolute np then np else env.resolvePath env.cwd np

/-- The RIFF container magic number: first four bytes `52 49 46 46`. -/
def isRiffHeader (b : Bytes) : Bool :=
  b[0]? = some 0x52 && b[1]? = some 0x49 && b[2]? = some 0x46 && b[3]? = some 0x46

/-- An MPEG frame sync: `0xFF` then a byte whose top three bits are set. -/
def isMp3Sync (b : Bytes) : Bool :=
  b[0]? = some 0xFF && (b[1]?).getD 0 &&& 0xE0 = 0xE0

/-- The extension-based classification used when no magic number matches:
lowercase extension `.wav` or `.mp3`, else the fixed default `wav`. -/
def extensionFormat (filename : String) : AudioFormat :=
  if lowerStr (posixExtname filename) = ".wav" then .wav
  else if lowerStr (posixExtname filename) = ".mp3" then .mp3
  else .wav

/-! ## Helper lemmas -/

theorem findFree_snd (env : Env) :
    (findSuitableFreeAudioModel env).2 = [Event.listModelsEv] := by
  unfold findSuitableFreeAudioModel
  rcases env.listModels with e | _ | ids
  · rfl
  · rfl
  · simp only
    split
    · rfl
    · split <;> rfl

theorem findFree_of_listingEmpty (env : Env) (h : listingEmpty env = true) :
    (findSuitableFreeAudioModel env).1 = jsOr env.backupEnv DEFAULT_AUDIO_MODEL := by
  unfold findSuitableFreeAudioModel
  unfold listingEmpty at h
  rcases henv : env.listModels with e | _ | ids
  · rfl
  · rfl
  · rw [henv] at h
    simp at h
    simp [h]

theorem backupCandidate_spec (env : Env) (model b : String)
    (h : backupCandidate env model = some b) :
    b ≠ model ∧ strTruthy env.backupEnv = some b := by
  unfold backupCandidate at h
  split at h
  next b' heq =>
    split at h
    next hne =>
      injection h with h
      subst h
      exact ⟨hne, heq⟩
    next => exact Option.noConfusion h
  next heq => exact Option.noConfusion h

theorem fetchAudio_snd (env : Env) (p : String) :
    (fetchAudio env p).2 = [Event.fetchUrl p] ∨
      (fetchAudio env p).2 = [Event.readFileEv (resolvedTarget env p)] := by
  unfold fetchAudio resolvedTarget
  by_cases h : isUrl env p
  · simp only [h, if_pos]
    rcases env.httpFetch p with e | r
    · exact Or.inl rfl
    · by_cases hok : r.ok <;> simp [hok]
  · simp only [h, if_neg]
    exact Or.inr rfl

theorem completionModels_append (t₁ t₂ : List Event) :
    completionModels (t₁ ++ t₂) = completionModels t₁ ++ completionModels t₂ :=
  List.filterMap_append t₁ t₂ _

theorem findFree_pair (env : Env) :
    findSuitableFreeAudioModel env
      = ((findSuitableFreeAudioModel env).1, [Event.listModelsEv]) := by
  rw [← findFree_snd env]

/-! ### Conditional equations for each stage of the handler -/

theorem handle_invalid (env : Env) (req : AnalyzeAudioToolRequest) (d : Option String)
    (hu : strTruthy req.audio_url = none) :
    handleAnalyzeAudio env req d
      = (.mcpFault ErrorCode_InvalidParams "audio_url parameter is required", []) := by
  simp only [handleAnalyzeAudio]
  rw [hu]

theorem handle_fetch_error (env : Env) (req : AnalyzeAudioToolRequest) (d : Option String)
    (u e : String) (tr : List Event) (hu : strTruthy req.audio_url = some u)
    (hf : fetchAudio env u = (.error e, tr)) :
    handleAnalyzeAudio env req d = (errorEnvelope e req d, tr) := by
  simp only [handleAnalyzeAudio, hu, hf]

theorem handle_fetch_ok (env : Env) (req : AnalyzeAudioToolRequest) (d : Option String)
    (u : String) (buf : Bytes) (tr : List Event) (hu : strTruthy req.audio_url = some u)
    (hf : fetchAudio env u = (.ok buf, tr)) :
    handleAnalyzeAudio env req d
      = ((runCompletion env req d).1, tr ++ (runCompletion env req d).2) := by
  simp only [handleAnalyzeAudio, hu, hf]

theorem runCompletion_ok (env : Env) (req : AnalyzeAudioToolRequest) (d : Option String)
    (c : Completion) (hc : env.chatComplete (selectModel req.model d) = .ok c) :
    runCompletion env req d
      = (successResult c, [Event.completionEv (selectModel req.model d)]) := by
  simp only [runCompletion]
  rw [hc]

theorem runCompletion_error (env : Env) (req : AnalyzeAudioToolRequest) (d : Option String)
    (e : String) (hc : env.chatComplete (selectModel req.model d) = .error e) :
    runCompletion env req d
      = ((runFallback env req d (selectModel req.model d) e).1,
          Event.completionEv (selectModel req.model d)
            :: (runFallback env req d (selectModel req.model d) e).2) := by
  simp only [runCompletion]
  rw [hc]

theorem runFallback_no_backup (env : Env) (req : AnalyzeAudioToolRequest)
    (d : Option String) (model pe : String) (hb : backupCandidate env model = none) :
    runFallback env req d model pe = tryFreeNoBackup env req d model pe := by
  simp only [runFallback]
  rw [hb]

theorem runFallback_backup_ok (env : Env) (req : AnalyzeAudioToolRequest)
    (d : Option String) (model pe b : String) (c : Completion)
    (hb : backupCandidate env model = some b) (hcb : env.chatComplete b = .ok c) :
    runFallback env req d model pe = (successResult c, [Event.completionEv b]) := by
  simp only [runFallback, hb, hcb]

theorem runFallback_backup_error (env : Env) (req : AnalyzeAudioToolRequest)
    (d : Option String) (model pe b e : String)
    (hb : backupCandidate env model = some b) (hcb : env.chatComplete b = .error e) :
    runFallback env req d model pe
      = ((tryFreeAfterBackup env req d model b e).1,
          Event.completionEv b :: (tryFreeAfterBackup env req d model b e).2) := by
  simp only [runFallback, hb, hcb]

theorem tryFreeNoBackup_skip (env : Env) (req : AnalyzeAudioToolRequest)
    (d : Option String) (model pe : String)
    (hcnd : ¬((findSuitableFreeAudioModel env).1 ≠ ""
        ∧ (findSuitableFreeAudioModel env).1 ≠ model)) :
    tryFreeNoBackup env req d model pe
      = (errorEnvelope pe req d, [Event.listModelsEv]) := by
  simp only [tryFreeNoBackup]
  rw [findFree_pair env]
  simp only
  rw [if_neg hcnd]

theorem tryFreeNoBackup_ok (env : Env) (req : AnalyzeAudioToolRequest)
    (d : Option String) (model pe : String) (c : Completion)
    (hcnd : (findSuitableFreeAudioModel env).1 ≠ ""
        ∧ (findSuitableFreeAudioModel env).1 ≠ model)
    (hcf : env.chatComplete (findSuitableFreeAudioModel env).1 = .ok c) :
    tryFreeNoBackup env req d model pe
      = (successResult c,
          [Event.listModelsEv, Event.completionEv (findSuitableFreeAudioModel env).1]) := by
  simp only [tryFreeNoBackup]
  rw [findFree_pair env]
  simp only
  rw [if_pos hcnd, hcf]
  rfl

theorem tryFreeNoBackup_error (env : Env) (req : AnalyzeAudioToolRequest)
    (d : Option String) (model pe e : String)
    (hcnd : (findSuitableFreeAudioModel env).1 ≠ ""
        ∧ (findSuitableFreeAudioModel env).1 ≠ model)
    (hcf : env.chatComplete (findSuitableFreeAudioModel env).1 = .error e) :
    tryFreeNoBackup env req d model pe
      = (errorEnvelope e req d,
          [Event.listModelsEv, Event.completionEv (findSuitableFreeAudioModel env).1]) := by
  simp only [tryFreeNoBackup]
  rw [findFree_pair env]
  simp only
  rw [if_pos hcnd, hcf]
  rfl

theorem tryFreeAfterBackup_skip (env : Env) (req : AnalyzeAudioToolRequest)
    (d : Option String) (model b e : String)
    (hcnd : ¬((findSuitableFreeAudioModel env).1 ≠ ""
        ∧ (findSuitableFreeAudioModel env).1 ≠ model
        ∧ (findSuitableFreeAudioModel env).1 ≠ b)) :
    tryFreeAfterBackup env req d model b e
      = (errorEnvelope e req d, [Event.listModelsEv]) := by
  simp only [tryFreeAfterBackup]
  rw [findFree_pair env]
  simp only
  rw [if_neg hcnd]

theorem tryFreeAfterBackup_ok (env : Env) (req : AnalyzeAudioToolRequest)
    (d : Option String) (model b e : String) (c : Completion)
    (hcnd : (findSuitableFreeAudioModel env).1 ≠ ""
        ∧ (findSuitableFreeAudioModel env).1 ≠ model
        ∧ (findSuitableFreeAudioModel env).1 ≠ b)
    (hcf : env.chatComplete (findSuitableFreeAudioModel env).1 = .ok c) :
    tryFreeAfterBackup env req d model b e
      = (successResult c,
          [Event.listModelsEv, Event.completionEv (findSuitableFreeAudioModel env).1]) := by
  simp only [tryFreeAfterBackup]
  rw [findFree_pair env]
  simp only
  rw [if_pos hcnd, hcf]
  rfl

theorem tryFreeAfterBackup_error (env : Env) (req : AnalyzeAudioToolRequest)
    (d : Option String) (model b e e' : String)
    (hcnd : (findSuitableFreeAudioModel env).1 ≠ ""
        ∧ (findSuitableFreeAudioModel env).1 ≠ model
        ∧ (findSuitableFreeAudioModel env).1 ≠ b)
    (hcf : env.chatComplete (findSuitableFreeAudioModel env).1 = .error e') :
    tryFreeAfterBackup env req d model b e
      = (errorEnvelope e' req d,
          [Event.listModelsEv, Event.completionEv (findSuitableFreeAudioModel env).1]) := by
  simp only [tryFreeAfterBackup]
  rw [findFree_pair env]
  simp only
  rw [if_pos hcnd, hcf]
  rfl

theorem explicitCandidates_none (env : Env) (req : AnalyzeAudioToolRequest)
    (d : Option String) (hb : backupCandidate env (selectModel req.model d) = none) :
    explicitCandidates env req d = [selectModel req.model d] := by
  simp only [explicitCandidates, hb]

theorem explicitCandidates_some (env : Env) (req : AnalyzeAudioToolRequest)
    (d : Option String) (b : String)
    (hb : backupCandidate env (selectModel req.model d) = some b) :
    explicitCandidates env req d = [selectModel req.model d, b] := by
  simp only [explicitCandidates, hb]

/-- Exhaustive enumeration of the handler's executions: validation fault,
fetch failure, and the eight completion shapes (primary ok; backup ok;
free tried after backup, ok or failed; free skipped after backup; free
tried without backup, ok or failed; free skipped without backup), with
the exact trace and outcome of each. -/
theorem handle_cases (env : Env) (req : AnalyzeAudioToolRequest) (d : Option String) :
    (strTruthy req.audio_url = none ∧
      handleAnalyzeAudio env req d
        = (.mcpFault ErrorCode_InvalidParams "audio_url parameter is required", []))
    ∨ (∃ u e tr, strTruthy req.audio_url = some u
        ∧ fetchAudio env u = (.error e, tr)
        ∧ handleAnalyzeAudio env req d = (errorEnvelope e req d, tr))
    ∨ (∃ u buf tr, strTruthy req.audio_url = some u
        ∧ fetchAudio env u = (.ok buf, tr)
        ∧ ((∃ c, env.chatComplete (selectModel req.model d) = .ok c
              ∧ handleAnalyzeAudio env req d
                  = (successResult c, tr ++ [.completionEv (selectModel req.model d)]))
           ∨ (∃ e1, env.chatComplete (selectModel req.model d) = .error e1
              ∧ ((∃ b c, backupCandidate env (selectModel req.model d) = some b
                    ∧ env.chatComplete b = .ok c
                    ∧ handleAnalyzeAudio env req d
                        = (successResult c, tr ++ [.completionEv (selectModel req.model d), .completionEv b]))
                ∨ (∃ b e2, backupCandidate env (selectModel req.model d) = some b
                    ∧ env.chatComplete b = .error e2
                    ∧ (((findSuitableFreeAudioModel env).1 ≠ "" ∧ (findSuitableFreeAudioModel env).1 ≠ selectModel req.model d ∧ (findSuitableFreeAudioModel env).1 ≠ b
                        ∧ ((∃ c, env.chatComplete (findSuitableFreeAudioModel env).1 = .ok c
                            ∧ handleAnalyzeAudio env req d
                                = (successResult c,
                                    tr ++ [.completionEv (selectModel req.model d), .completionEv b,
                                      .listModelsEv, .completionEv (findSuitableFreeAudioModel env).1]))
                          ∨ (∃ e3, env.chatComplete (findSuitableFreeAudioModel env).1 = .error e3
                            ∧ handleAnalyzeAudio env req d
                                = (errorEnvelope e3 req d,
                                    tr ++ [.completionEv (selectModel req.model d), .completionEv b,
                                      .listModelsEv, .completionEv (findSuitableFreeAudioModel env).1]))))
                      ∨ (¬((findSuitableFreeAudioModel env).1 ≠ "" ∧ (findSuitableFreeAudioModel env).1 ≠ selectModel req.model d ∧ (findSuitableFreeAudioModel env).1 ≠ b)
                        ∧ handleAnalyzeAudio env req d
                            = (errorEnvelope e2 req d,
                                tr ++ [.completionEv (selectModel req.model d), .completionEv b,
                                  .listModelsEv]))))
                ∨ (backupCandidate env (selectModel req.model d) = none
                    ∧ (((findSuitableFreeAudioModel env).1 ≠ "" ∧ (findSuitableFreeAudioModel env).1 ≠ selectModel req.model d
                        ∧ ((∃ c, env.chatComplete (findSuitableFreeAudioModel env).1 = .ok c
                            ∧ handleAnalyzeAudio env req d
                                = (successResult c,
                                    tr ++ [.completionEv (selectModel req.model d), .listModelsEv,
                                      .completionEv (findSuitableFreeAudioModel env).1]))
                          ∨ (∃ e3, env.chatComplete (findSuitableFreeAudioModel env).1 = .error e3
                            ∧ handleAnalyzeAudio env req d
                                = (errorEnvelope e3 req d,
                                    tr ++ [.completionEv (selectModel req.model d), .listModelsEv,
                                      .completionEv (findSuitableFreeAudioModel env).1]))))
                      ∨ (¬((findSuitableFreeAudioModel env).1 ≠ "" ∧ (findSuitableFreeAudioModel env).1 ≠ selectModel req.model d)
                        ∧ handleAnalyzeAudio env req d
                            = (errorEnvelope e1 req d,
                                tr ++ [.completionEv (selectModel req.model d), .listModelsEv])))))))) := by
  rcases hu : strTruthy req.audio_url with _ | u
  · exact Or.inl ⟨rfl, handle_invalid env req d hu⟩
  · rcases hf : fetchAudio env u with ⟨fr, tr⟩
    rcases fr with e | buf
    · exact Or.inr (Or.inl ⟨u, e, tr, rfl, hf, handle_fetch_error env req d u e tr hu hf⟩)
    · refine Or.inr (Or.inr ⟨u, buf, tr, rfl, hf, ?_⟩)
      have hrun := handle_fetch_ok env req d u buf tr hu hf
      rcases hc : env.chatComplete (selectModel req.model d) with e1 | c1
      · refine Or.inr ⟨e1, rfl, ?_⟩
        rw [runCompletion_error env req d e1 hc] at hrun
        rcases hb : backupCandidate env (selectModel req.model d) with _ | b
        · refine Or.inr (Or.inr ⟨rfl, ?_⟩)
          rw [runFallback_no_backup env req d _ e1 hb] at hrun
          by_cases hcnd : (findSuitableFreeAudioModel env).1 ≠ ""
              ∧ (findSuitableFreeAudioModel env).1 ≠ selectModel req.model d
          · refine Or.inl ⟨hcnd.1, hcnd.2, ?_⟩
            rcases hcf : env.chatComplete (findSuitableFreeAudioModel env).1 with e3 | c3
            · refine Or.inr ⟨e3, rfl, ?_⟩
              rw [tryFreeNoBackup_error env req d _ e1 e3 hcnd hcf] at hrun
              simpa using hrun
            · refine Or.inl ⟨c3, rfl, ?_⟩
              rw [tryFreeNoBackup_ok env req d _ e1 c3 hcnd hcf] at hrun
              simpa using hrun
          · refine Or.inr ⟨hcnd, ?_⟩
            rw [tryFreeNoBackup_skip env req d _ e1 hcnd] at hrun
            simpa using hrun
        · rcases hcb : env.chatComplete b with e2 | c2
          · refine Or.inr (Or.inl ⟨b, e2, rfl, hcb, ?_⟩)
            rw [runFallback_backup_error env req d _ e1 b e2 hb hcb] at hrun
            by_cases hcnd : (findSuitableFreeAudioModel env).1 ≠ ""
                ∧ (findSuitableFreeAudioModel env).1 ≠ selectModel req.model d
                ∧ (findSuitableFreeAudioModel env).1 ≠ b
            · refine Or.inl ⟨hcnd.1, hcnd.2.1, hcnd.2.2, ?_⟩
              rcases hcf : env.chatComplete (findSuitableFreeAudioModel env).1 with e3 | c3
              · refine Or.inr ⟨e3, rfl, ?_⟩
                rw [tryFreeAfterBackup_error env req d _ b e2 e3 hcnd hcf] at hrun
                simpa using hrun
              · refine Or.inl ⟨c3, rfl, ?_⟩
                rw [tryFreeAfterBackup_ok env req d _ b e2 c3 hcnd hcf] at hrun
                simpa using hrun
            · refine Or.inr ⟨hcnd, ?_⟩
              rw [tryFreeAfterBackup_skip env req d _ b e2 hcnd] at hrun
              simpa using hrun
          · refine Or.inl ⟨b, c2, rfl, hcb, ?_⟩
            rw [runFallback_backup_ok env req d _ e1 b c2 hb hcb] at hrun
            simpa using hrun
      · refine Or.inl ⟨c1, rfl, ?_⟩
        rw [runCompletion_ok env req d c1 hc] at hrun
        simpa using hrun

theorem fetch_tr_counts (env : Env) (u : String) (fr : Except String Bytes)
    (tr : List Event) (hf : fetchAudio env u = (fr, tr)) :
    completionModels tr = [] ∧ countListings tr = 0 ∧ countFetches tr = 1 := by
  have h := fetchAudio_snd env u
  rw [hf] at h
  rcases h with h | h
  · have h' : tr = [Event.fetchUrl u] := h
    subst h'
    exact ⟨rfl, rfl, rfl⟩
  · have h' : tr = [Event.readFileEv (resolvedTarget env u)] := h
    subst h'
    exact ⟨rfl, rfl, rfl⟩

theorem countListings_append (t₁ t₂ : List Event) :
    countListings (t₁ ++ t₂) = countListings t₁ + countListings t₂ :=
  List.countP_append _ _ _

theorem countFetches_append (t₁ t₂ : List Event) :
    countFetches (t₁ ++ t₂) = countFetches t₁ + countFetches t₂ :=
  List.countP_append _ _ _

theorem candidateList_def (env : Env) (req : AnalyzeAudioToolRequest)
    (d : Option String) :
    candidateList env req d
      = explicitCandidates env req d
        ++ (if (findSuitableFreeAudioModel env).1 ≠ ""
              ∧ (findSuitableFreeAudioModel env).1 ∉ explicitCandidates env req d
            then [(findSuitableFreeAudioModel env).1] else []) := rfl

theorem singleton_prefix_cons {α : Type} (a : α) (l : List α) :
    [a] <+: a :: l := ⟨l, rfl⟩

/-- The completion calls a full invocation issues form a prefix of the
ordered, de-duplicated candidate list. -/
theorem handle_completions_chain (env : Env) (req : AnalyzeAudioToolRequest)
    (d : Option String) :
    completionModels (handleAnalyzeAudio env req d).2 <+: candidateList env req d := by
  rcases handle_cases env req d with ⟨hu, h⟩ | ⟨u, e, tr, hu, hf, h⟩ |
    ⟨u, buf, tr, hu, hf, hrest⟩
  · rw [h]
    exact List.nil_prefix
  · obtain ⟨hcm, -, -⟩ := fetch_tr_counts env u _ tr hf
    rw [h]
    simp only [hcm]
    exact List.nil_prefix
  · obtain ⟨hcm, -, -⟩ := fetch_tr_counts env u _ tr hf
    rcases hrest with ⟨c, hc, h⟩ | ⟨e1, hc, hrest⟩
    · rw [h, completionModels_append, hcm, candidateList_def]
      exact (singleton_prefix_cons _ _).trans
        ((explicitCandidates env req d).prefix_append _)
    · rcases hrest with ⟨b, c, hb, hcb, h⟩ | ⟨b, e2, hb, hcb, hrest⟩ | ⟨hb, hrest⟩
      · rw [h, completionModels_append, hcm, candidateList_def,
          explicitCandidates_some env req d b hb]
        exact List.prefix_append _ _
      · rcases hrest with ⟨hne, hnm, hnb, ⟨c3, hcf, h⟩ | ⟨e3, hcf, h⟩⟩ | ⟨hcnd, h⟩
        · rw [h, completionModels_append, hcm, candidateList_def,
            explicitCandidates_some env req d b hb,
            if_pos ⟨hne, by simp [explicitCandidates_some env req d b hb, hnm, hnb]⟩]
          exact List.prefix_refl _
        · rw [h, completionModels_append, hcm, candidateList_def,
            explicitCandidates_some env req d b hb,
            if_pos ⟨hne, by simp [explicitCandidates_some env req d b hb, hnm, hnb]⟩]
          exact List.prefix_refl _
        · rw [h, completionModels_append, hcm, candidateList_def,
            explicitCandidates_some env req d b hb]
          exact List.prefix_append _ _
      · rcases hrest with ⟨hne, hnm, ⟨c3, hcf, h⟩ | ⟨e3, hcf, h⟩⟩ | ⟨hcnd, h⟩
        · rw [h, completionModels_append, hcm, candidateList_def,
            explicitCandidates_none env req d hb,
            if_pos ⟨hne, by simp [explicitCandidates_none env req d hb, hnm]⟩]
          exact List.prefix_refl _
        · rw [h, completionModels_append, hcm, candidateList_def,
            explicitCandidates_none env req d hb,
            if_pos ⟨hne, by simp [explicitCandidates_none env req d hb, hnm]⟩]
          exact List.prefix_refl _
        · rw [h, completionModels_append, hcm, candidateList_def,
            explicitCandidates_none env req d hb]
          exact List.prefix_append _ _

/-- The ordered candidate list never repeats a model. -/
theorem candidateList_nodup (env : Env) (req : AnalyzeAudioToolRequest)
    (d : Option String) : (candidateList env req d).Nodup := by
  rw [candidateList_def]
  rcases hb : backupCandidate env (selectModel req.model d) with _ | b
  · rw [explicitCandidates_none env req d hb]
    split
    next hcnd =>
      have h1 : (findSuitableFreeAudioModel env).1 ≠ selectModel req.model d := by
        simpa using hcnd.2
      simp [Ne.symm h1]
    next => simp
  · obtain ⟨hbne, -⟩ := backupCandidate_spec env _ b hb
    rw [explicitCandidates_some env req d b hb]
    split
    next hcnd =>
      have h1 : (findSuitableFreeAudioModel env).1 ≠ selectModel req.model d
          ∧ (findSuitableFreeAudioModel env).1 ≠ b := by
        simpa [not_or] using hcnd.2
      simp [Ne.symm hbne, Ne.symm h1.1, Ne.symm h1.2]
    next => simp [Ne.symm hbne]

theorem riff_iff (b : Bytes) : isRiffHeader b = true ↔
    (b[0]? = some 0x52 ∧ b[1]? = some 0x49 ∧ b[2]? = some 0x46 ∧ b[3]? = some 0x46) := by
  simp [isRiffHeader, and_assoc]

theorem mp3_iff (b : Bytes) : isMp3Sync b = true ↔
    (b[0]? = some 0xFF ∧ (b[1]?).getD 0 &&& 0xE0 = 0xE0) := by
  simp [isMp3Sync]

/-- A fully concrete environment in which every external call succeeds:
URL parsing succeeds exactly for http(s) strings, the backup variable is
unset, and every completion call is answered. -/
def envA : Env where
  urlParses s := s = "https://example.com/a.wav"
  httpFetch _ := .ok ⟨200, "OK", [0x52, 0x49, 0x46, 0x46]⟩
  readFile _ := .ok [0xFF, 0xFB]
  cwd := "/workdir"
  resolvePath c p := c ++ "/" ++ p
  backupEnv := none
  listModels := .ok (some ["mistralai/voxtral-small-24b-2507:free"])
  chatComplete m := .ok ⟨"cmpl-1", m, some "transcribed text", ⟨3, 4, 7⟩⟩

/-- Rewrites `detectAudioFormat` as a first-match-wins cascade over the named
classifiers. -/
theorem detect_eq (b : Bytes) (f : String) :
    detectAudioFormat b f
      = (if isRiffHeader b then AudioFormat.wav
         else if isMp3Sync b then AudioFormat.mp3
         else extensionFormat f) := by
  unfold detectAudioFormat
  by_cases h1 : (b[0]? = some 0x52 ∧ b[1]? = some 0x49
      ∧ b[2]? = some 0x46 ∧ b[3]? = some 0x46)
  · rw [if_pos h1, if_pos ((riff_iff b).mpr h1)]
  · rw [if_neg h1, if_neg (fun hh => h1 ((riff_iff b).mp hh))]
    by_cases h2 : (b[0]? = some 0xFF ∧ (b[1]?).getD 0 &&& 0xE0 = 0xE0)
    · rw [if_pos h2, if_pos ((mp3_iff b).mpr h2)]
    · rw [if_neg h2, if_neg (fun hh => h2 ((mp3_iff b).mp hh))]
      rfl

/-! ## Claims -/

/-- C7: format detection is a deterministic total function: for every
byte buffer (including the empty buffer and buffers shorter than four
bytes, whose out-of-range reads are handled by the `Option` accesses) and
every filename, `detectAudioFormat` returns one of the known tags `wav`
or `mp3`.  Totality and determinism hold by construction, since the
embedding is a total Lean function. -/
theorem c7_detect_total (b : Bytes) (f : String) :
    detectAudioFormat b f = .wav ∨ detectAudioFormat b f = .mp3 := by
  rw [detect_eq]
  by_cases hr : isRiffHeader b
  · simp [hr]
  · by_cases hm : isMp3Sync b
    · simp [hr, hm]
    · simp only [hr, hm, Bool.false_eq_true, if_false]
      unfold extensionFormat
      split
      · exact Or.inl rfl
      · split
        · exact Or.inr rfl
        · exact Or.inl rfl

/-- C8: detection precedence: a RIFF magic number forces `wav` regardless
of the filename; otherwise an MPEG frame sync (0xFF then a byte with the
top three bits set) forces `mp3`; only when neither magic number matches
is the lowercase filename extension consulted (with fixed default `wav`,
per `extensionFormat`). -/
theorem c8_detection_order (b : Bytes) (f : String) :
    (isRiffHeader b = true → detectAudioFormat b f = .wav)
    ∧ (isRiffHeader b = false → isMp3Sync b = true → detectAudioFormat b f = .mp3)
    ∧ (isRiffHeader b = false → isMp3Sync b = false →
        detectAudioFormat b f = extensionFormat f) := by
  refine ⟨fun h => ?_, fun h1 h2 => ?_, fun h1 h2 => ?_⟩
  · rw [detect_eq, if_pos h]
  · rw [detect_eq, if_neg (by simp [h1]), if_pos h2]
  · rw [detect_eq, if_neg (by simp [h1]), if_neg (by simp [h2])]

/-- C8 witness: the three branches at concrete inputs. -/
theorem c8_witness :
    detectAudioFormat [0x52, 0x49, 0x46, 0x46] "song.mp3" = .wav
    ∧ detectAudioFormat [0xFF, 0xFB] "song.wav" = .mp3
    ∧ detectAudioFormat [0x00] "song.mp3" = extensionFormat "song.mp3" :=
  ⟨(c8_detection_order [0x52, 0x49, 0x46, 0x46] "song.mp3").1 (by decide),
   (c8_detection_order [0xFF, 0xFB] "song.wav").2.1 (by decide) (by decide),
   (c8_detection_order [0x00] "song.mp3").2.2 (by decide) (by decide)⟩

/-- C4: a request whose `audio_url` is absent (or empty, hence falsy)
raises the protocol-level `McpError(InvalidParams)`, which the outer
catch rethrows instead of converting to a soft-failure envelope, and the
trace is empty: no payload fetch, no model listing, no completion call. -/
theorem c4_missing_audio_url (env : Env) (req : AnalyzeAudioToolRequest)
    (d : Option String) (hu : strTruthy req.audio_url = none) :
    handleAnalyzeAudio env req d
      = (.mcpFault ErrorCode_InvalidParams "audio_url parameter is required", []) :=
  handle_invalid env req d hu

/-- C4 witness: the empty-string `audio_url` at a concrete environment. -/
theorem c4_witness :
    handleAnalyzeAudio envA ⟨some "", some "m1"⟩ none
      = (.mcpFault ErrorCode_InvalidParams "audio_url parameter is required", []) :=
  c4_missing_audio_url envA ⟨some "", some "m1"⟩ none rfl

/-- C2: when the completion call for the primary candidate succeeds, the
handler returns that completion's envelope, the only completion call is
the primary's, and no model-listing call is issued. -/
theorem c2_primary_short_circuit (env : Env) (req : AnalyzeAudioToolRequest)
    (d : Option String) (u : String) (buf : Bytes) (tr : List Event) (c : Completion)
    (hu : strTruthy req.audio_url = some u)
    (hf : fetchAudio env u = (.ok buf, tr))
    (hc : env.chatComplete (selectModel req.model d) = .ok c) :
    (handleAnalyzeAudio env req d).1 = successResult c
    ∧ completionModels (handleAnalyzeAudio env req d).2 = [selectModel req.model d]
    ∧ countListings (handleAnalyzeAudio env req d).2 = 0 := by
  obtain ⟨hcm, hcl, -⟩ := fetch_tr_counts env u _ tr hf
  have h := handle_fetch_ok env req d u buf tr hu hf
  rw [runCompletion_ok env req d c hc] at h
  rw [h]
  refine ⟨rfl, ?_, ?_⟩
  · rw [completionModels_append, hcm]
    rfl
  · rw [countListings_append, hcl]
    rfl

/-- C2 witness: a concrete invocation whose primary completion succeeds. -/
theorem c2_witness :
    (handleAnalyzeAudio envA ⟨some "audio.wav", some "m1"⟩ none).1
      = successResult ⟨"cmpl-1", "m1", some "transcribed text", ⟨3, 4, 7⟩⟩
    ∧ completionModels (handleAnalyzeAudio envA ⟨some "audio.wav", some "m1"⟩ none).2
      = ["m1"]
    ∧ countListings (handleAnalyzeAudio envA ⟨some "audio.wav", some "m1"⟩ none).2 = 0 :=
  c2_primary_short_circuit envA ⟨some "audio.wav", some "m1"⟩ none "audio.wav"
    [0xFF, 0xFB] [Event.readFileEv "/workdir/audio.wav"]
    ⟨"cmpl-1", "m1", some "transcribed text", ⟨3, 4, 7⟩⟩ rfl rfl rfl

/-- C10: the `model` field of any soft-failure envelope the handler
returns is always the primary candidate (request model, else caller
default, else the built-in default audio model), regardless of which
attempt produced the reported error. -/
theorem c10_failure_model_is_primary (env : Env) (req : AnalyzeAudioToolRequest)
    (d : Option String) :
    (failureModel (handleAnalyzeAudio env req d).1).getD (selectModel req.model d)
      = selectModel req.model d := by
  rcases handle_cases env req d with ⟨hu, h⟩ | ⟨u, e, tr, hu, hf, h⟩ |
    ⟨u, buf, tr, hu, hf, hrest⟩
  · rw [h]; rfl
  · rw [h]; rfl
  · rcases hrest with ⟨c, hc, h⟩ | ⟨e1, hc, hrest⟩
    · rw [h]; rfl
    · rcases hrest with ⟨b, c, hb, hcb, h⟩ | ⟨b, e2, hb, hcb, hrest⟩ | ⟨hb, hrest⟩
      · rw [h]; rfl
      · rcases hrest with ⟨hne, hnm, hnb, ⟨c3, hcf, h⟩ | ⟨e3, hcf, h⟩⟩ | ⟨hcnd, h⟩ <;>
          rw [h] <;> rfl
      · rcases hrest with ⟨hne, hnm, ⟨c3, hcf, h⟩ | ⟨e3, hcf, h⟩⟩ | ⟨hcnd, h⟩ <;>
          rw [h] <;> rfl

/-- C5: no model identifier is ever sent to the completion API twice in
one invocation: the issued completion calls form a prefix of the ordered,
de-duplicated candidate list (primary, then the backup only when distinct
from the primary, then the discovered free model only when distinct from
both), which itself contains no duplicates. -/
theorem c5_no_duplicate_model_calls (env : Env) (req : AnalyzeAudioToolRequest)
    (d : Option String) :
    completionModels (handleAnalyzeAudio env req d).2 <+: candidateList env req d
    ∧ (candidateList env req d).Nodup
    ∧ (completionModels (handleAnalyzeAudio env req d).2).Nodup :=
  ⟨handle_completions_chain env req d, candidateList_nodup env req d,
    (candidateList_nodup env req d).sublist
      (handle_completions_chain env req d).sublist⟩

/-- C6: per invocation, at most one payload fetch, at most one
model-listing call, and at most three completion calls are issued (the
trace is a single sequential list, so a fourth completion call never
occurs). -/
theorem c6_call_bounds (env : Env) (req : AnalyzeAudioToolRequest)
    (d : Option String) :
    countFetches (handleAnalyzeAudio env req d).2 ≤ 1
    ∧ countListings (handleAnalyzeAudio env req d).2 ≤ 1
    ∧ (completionModels (handleAnalyzeAudio env req d).2).length ≤ 3 := by
  rcases handle_cases env req d with ⟨hu, h⟩ | ⟨u, e, tr, hu, hf, h⟩ |
    ⟨u, buf, tr, hu, hf, hrest⟩
  · rw [h]
    exact ⟨Nat.zero_le _, Nat.zero_le _, Nat.zero_le _⟩
  · obtain ⟨hcm, hcl, hcff⟩ := fetch_tr_counts env u _ tr hf
    rw [h]
    exact ⟨Nat.le_of_eq hcff, by rw [hcl]; exact Nat.zero_le _,
      by rw [hcm]; exact Nat.zero_le _⟩
  · obtain ⟨hcm, hcl, hcff⟩ := fetch_tr_counts env u _ tr hf
    have bounds : ∀ rest : List Event,
        countFetches rest = 0 → countListings rest ≤ 1 →
        (completionModels rest).length ≤ 3 →
        countFetches (tr ++ rest) ≤ 1 ∧ countListings (tr ++ rest) ≤ 1
          ∧ (completionModels (tr ++ rest)).length ≤ 3 := by
      intro rest h1 h2 h3
      refine ⟨?_, ?_, ?_⟩
      · rw [countFetches_append, hcff, h1]
      · rw [countListings_append, hcl]
        exact Nat.le_trans (Nat.le_of_eq (Nat.zero_add _)) h2
      · rw [completionModels_append, hcm]
        exact h3
    rcases hrest with ⟨c, hc, h⟩ | ⟨e1, hc, hrest⟩
    · rw [h]
      exact bounds _ rfl (Nat.zero_le _)
        (Nat.le_succ_of_le (Nat.le_succ_of_le (Nat.le_refl _)))
    · rcases hrest with ⟨b, c, hb, hcb, h⟩ | ⟨b, e2, hb, hcb, hrest⟩ | ⟨hb, hrest⟩
      · rw [h]
        exact bounds _ rfl (Nat.zero_le _) (Nat.le_succ_of_le (Nat.le_refl _))
      · rcases hrest with ⟨hne, hnm, hnb, ⟨c3, hcf, h⟩ | ⟨e3, hcf, h⟩⟩ | ⟨hcnd, h⟩ <;>
          rw [h]
        · exact bounds _ rfl (Nat.le_refl _) (Nat.le_refl _)
        · exact bounds _ rfl (Nat.le_refl _) (Nat.le_refl _)
        · exact bounds _ rfl (Nat.le_refl _) (Nat.le_succ_of_le (Nat.le_refl _))
      · rcases hrest with ⟨hne, hnm, ⟨c3, hcf, h⟩ | ⟨e3, hcf, h⟩⟩ | ⟨hcnd, h⟩ <;>
          rw [h]
        · exact bounds _ rfl (Nat.le_refl _) (Nat.le_succ_of_le (Nat.le_refl _))
        · exact bounds _ rfl (Nat.le_refl _) (Nat.le_succ_of_le (Nat.le_refl _))
        · exact bounds _ rfl (Nat.le_refl _)
            (Nat.le_succ_of_le (Nat.le_succ_of_le (Nat.le_refl _)))

theorem not_completion_mem (tr : List Event) (hcm : completionModels tr = [])
    (m : String) : Event.completionEv m ∉ tr := by
  intro hm
  have hmem : m ∈ completionModels tr := List.mem_filterMap.mpr ⟨_, hm, rfl⟩
  rw [hcm] at hmem
  exact absurd hmem (List.not_mem_nil m)

theorem not_listing_mem (tr : List Event) (hcl : countListings tr = 0) :
    Event.listModelsEv ∉ tr := by
  intro hm
  have := List.countP_eq_zero.mp hcl Event.listModelsEv hm
  simp at this

theorem jsOr_default_ne_empty (a : Option String) :
    jsOr a DEFAULT_AUDIO_MODEL ≠ "" := by
  unfold jsOr strTruthy
  rcases a with _ | s
  · decide
  · by_cases h : s = ""
    · simp only [h, if_pos]
      decide
    · simp only [h, if_neg, Option.getD_some]
      exact h

/-- C9: the payload loader classifies its input by URL-parse success: a
parseable reference is fetched over HTTP (exactly one GET to that URL),
succeeding exactly when the status is in the 200–299 success range and
failing with the statusText message otherwise; any other reference is
read as a file at the backslash-normalized path, resolved against the
working directory when not absolute, with the read's result (content or
I/O error) propagated as-is. -/
theorem c9_payload_loader (env : Env) (ref : String) :
    (env.urlParses ref = true →
      (fetchAudio env ref).2 = [Event.fetchUrl ref]
      ∧ (∀ e, env.httpFetch ref = .error e → (fetchAudio env ref).1 = .error e)
      ∧ (∀ r, env.httpFetch ref = .ok r →
          ((200 ≤ r.status ∧ r.status ≤ 299) → (fetchAudio env ref).1 = .ok r.body)
          ∧ (¬(200 ≤ r.status ∧ r.status ≤ 299) →
              (fetchAudio env ref).1
                = .error ("Failed to fetch audio: " ++ r.statusText))))
    ∧ (env.urlParses ref = false →
      (fetchAudio env ref).2 = [Event.readFileEv (resolvedTarget env ref)]
      ∧ (fetchAudio env ref).1 = env.readFile (resolvedTarget env ref)) := by
  constructor
  · intro hp
    refine ⟨?_, fun e he => ?_, fun r hr => ⟨fun hs => ?_, fun hs => ?_⟩⟩
    · rcases hh : env.httpFetch ref with e | r
      · simp [fetchAudio, isUrl, hp, hh]
      · by_cases hok : r.ok = true <;> simp [fetchAudio, isUrl, hp, hh, hok]
    · simp [fetchAudio, isUrl, hp, he]
    · have hok : r.ok = true := by
        simp [FetchResponse.ok, hs.1, hs.2]
      simp [fetchAudio, isUrl, hp, hr, hok]
    · have hok : ¬(r.ok = true) := fun hok =>
        hs (by simpa [FetchResponse.ok] using hok)
      simp [fetchAudio, isUrl, hp, hr, hok]
  · intro hp
    constructor <;> simp [fetchAudio, isUrl, hp, resolvedTarget]

/-- C9 witness: a URL reference is fetched with a success status, and a
backslashed relative path is read from its resolved location. -/
theorem c9_witness :
    (fetchAudio envA "https://example.com/a.wav").2
      = [Event.fetchUrl "https://example.com/a.wav"]
    ∧ (fetchAudio envA "https://example.com/a.wav").1
      = .ok [0x52, 0x49, 0x46, 0x46]
    ∧ (fetchAudio envA "clips\\a.wav").2
      = [Event.readFileEv (resolvedTarget envA "clips\\a.wav")]
    ∧ (fetchAudio envA "clips\\a.wav").1
      = envA.readFile (resolvedTarget envA "clips\\a.wav") := by
  have h1 := (c9_payload_loader envA "https://example.com/a.wav").1 rfl
  have h2 := (c9_payload_loader envA "clips\\a.wav").2 rfl
  exact ⟨h1.1, (h1.2.2 ⟨200, "OK", [0x52, 0x49, 0x46, 0x46]⟩ rfl).1 (by decide),
    h2.1, h2.2⟩

/-- C3: when the request is well-formed, the payload is obtained, and
every completion attempt of the invocation fails, the handler returns a
soft-failure envelope (`isError` true) whose payload carries the error
message of the most recent completion attempt (the last completion call
in the trace, not necessarily the primary's) and zeroed usage counts. -/
theorem c3_exhaustion (env : Env) (req : AnalyzeAudioToolRequest) (d : Option String)
    (u : String) (buf : Bytes) (tr : List Event)
    (hu : strTruthy req.audio_url = some u)
    (hf : fetchAudio env u = (.ok buf, tr))
    (hall : ∀ m, Event.completionEv m ∈ (handleAnalyzeAudio env req d).2 →
        ∃ e, env.chatComplete m = .error e) :
    ∃ m e, (completionModels (handleAnalyzeAudio env req d).2).getLast? = some m
      ∧ env.chatComplete m = .error e
      ∧ (handleAnalyzeAudio env req d).1
          = .result (.failure e (selectModel req.model d) zeroUsage) true := by
  obtain ⟨hcm, -, -⟩ := fetch_tr_counts env u _ tr hf
  rcases handle_cases env req d with ⟨hu', h⟩ | ⟨u', e', tr', hu', hf', h⟩ |
    ⟨u', buf', tr', hu', hf', hrest⟩
  · rw [hu] at hu'
    exact absurd hu' (by simp)
  · rw [hu] at hu'
    injection hu' with huu
    subst huu
    rw [hf] at hf'
    injection hf' with h1 h2
    exact Except.noConfusion h1
  · rw [hu] at hu'
    injection hu' with huu
    subst huu
    rw [hf] at hf'
    injection hf' with h1 h2
    injection h1 with hbuf
    subst hbuf
    subst h2
    rcases hrest with ⟨c, hc, h⟩ | ⟨e1, hc, hrest⟩
    · obtain ⟨e, hce⟩ := hall (selectModel req.model d) (by rw [h]; simp)
      rw [hc] at hce
      exact Except.noConfusion hce
    · rcases hrest with ⟨b, c, hb, hcb, h⟩ | ⟨b, e2, hb, hcb, hrest⟩ | ⟨hb, hrest⟩
      · obtain ⟨e, hce⟩ := hall b (by rw [h]; simp)
        rw [hcb] at hce
        exact Except.noConfusion hce
      · rcases hrest with ⟨hne, hnm, hnb, ⟨c3, hcf, h⟩ | ⟨e3, hcf, h⟩⟩ | ⟨hcnd, h⟩
        · obtain ⟨e, hce⟩ := hall (findSuitableFreeAudioModel env).1 (by rw [h]; simp)
          rw [hcf] at hce
          exact Except.noConfusion hce
        · refine ⟨(findSuitableFreeAudioModel env).1, e3, ?_, hcf, ?_⟩
          · rw [h, completionModels_append, hcm]
            rfl
          · rw [h]
            rfl
        · refine ⟨b, e2, ?_, hcb, ?_⟩
          · rw [h, completionModels_append, hcm]
            rfl
          · rw [h]
            rfl
      · rcases hrest with ⟨hne, hnm, ⟨c3, hcf, h⟩ | ⟨e3, hcf, h⟩⟩ | ⟨hcnd, h⟩
        · obtain ⟨e, hce⟩ := hall (findSuitableFreeAudioModel env).1 (by rw [h]; simp)
          rw [hcf] at hce
          exact Except.noConfusion hce
        · refine ⟨(findSuitableFreeAudioModel env).1, e3, ?_, hcf, ?_⟩
          · rw [h, completionModels_append, hcm]
            rfl
          · rw [h]
            rfl
        · refine ⟨selectModel req.model d, e1, ?_, hc, ?_⟩
          · rw [h, completionModels_append, hcm]
            rfl
          · rw [h]
            rfl

/-- A concrete environment in which every completion call and the model
listing fail, with a configured backup model `m2`. -/
def envE : Env where
  urlParses _ := false
  httpFetch _ := .error "net down"
  readFile _ := .ok [0x52, 0x49, 0x46, 0x46]
  cwd := "/w"
  resolvePath c p := c ++ "/" ++ p
  backupEnv := some "m2"
  listModels := .error "listing down"
  chatComplete _ := .error "boom"

/-- C3 witness: with primary `m1` and backup `m2` both failing and
discovery failing, the envelope carries the backup's (most recent) error
and the last completion call is to `m2`. -/
theorem c3_witness :
    (completionModels
        (handleAnalyzeAudio envE ⟨some "/a.wav", some "m1"⟩ none).2).getLast?
      = some "m2"
    ∧ (handleAnalyzeAudio envE ⟨some "/a.wav", some "m1"⟩ none).1
      = .result (.failure "boom" "m1" zeroUsage) true := by
  obtain ⟨m, e, -, -, -⟩ := c3_exhaustion envE ⟨some "/a.wav", some "m1"⟩ none
    "/a.wav" [0x52, 0x49, 0x46, 0x46] [Event.readFileEv "/a.wav"] rfl rfl
    (fun m _ => ⟨"boom", rfl⟩)
  exact ⟨rfl, rfl⟩

/-- A concrete environment with no backup configured, a failing model
listing, a failing primary `m1`, and a succeeding built-in default
model. -/
def envC1 : Env where
  urlParses _ := false
  httpFetch _ := .error "net down"
  readFile _ := .ok [0xFF, 0xFB]
  cwd := "/w"
  resolvePath c p := c ++ "/" ++ p
  backupEnv := none
  listModels := .error "listing down"
  chatComplete m :=
    if m = "m1" then .error "rate limited"
    else .ok ⟨"gen-1", m, some "transcript", ⟨1, 2, 3⟩⟩

/-- The request of the C1 counterexample: explicit model `m1`. -/
def reqC1 : AnalyzeAudioToolRequest := ⟨some "/a.wav", some "m1"⟩

/-- C1 counterexample: the model-listing call fails, yet discovery does
not yield nothing — it falls back to the built-in default model, and the
handler issues a completion call to that model, which is not in the
explicit candidate list (`[m1]`), and returns its success instead of
surfacing the last explicitly tried model's error. -/
theorem c1_counterexample :
    listingEmpty envC1 = true
    ∧ Event.listModelsEv ∈ (handleAnalyzeAudio envC1 reqC1 none).2
    ∧ Event.completionEv DEFAULT_AUDIO_MODEL ∈ (handleAnalyzeAudio envC1 reqC1 none).2
    ∧ DEFAULT_AUDIO_MODEL ∉ explicitCandidates envC1 reqC1 none
    ∧ (handleAnalyzeAudio envC1 reqC1 none).1
        = successResult ⟨"gen-1", DEFAULT_AUDIO_MODEL, some "transcript", ⟨1, 2, 3⟩⟩
    ∧ (handleAnalyzeAudio envC1 reqC1 none).1 ≠ errorEnvelope "rate limited" reqC1 none := by
  refine ⟨rfl, ?_, ?_, ?_, rfl, ?_⟩ <;> decide

/-- C1 amended: when the model-listing call fails or returns no entries,
discovery yields the configured backup model, or the built-in default
audio model when no backup is configured; the handler issues a completion
call only to explicit candidates or to that fallback, and whenever the
fallback coincides with an explicitly tried model (always true when a
backup is configured) it surfaces the error of the last explicitly tried
model. -/
theorem c1_amended (env : Env) (req : AnalyzeAudioToolRequest) (d : Option String)
    (hle : listingEmpty env = true)
    (hmem : Event.listModelsEv ∈ (handleAnalyzeAudio env req d).2) :
    (∀ m, Event.completionEv m ∈ (handleAnalyzeAudio env req d).2 →
        m ∈ explicitCandidates env req d ∨ m = jsOr env.backupEnv DEFAULT_AUDIO_MODEL)
    ∧ (jsOr env.backupEnv DEFAULT_AUDIO_MODEL ∈ explicitCandidates env req d →
        ∃ c e, (explicitCandidates env req d).getLast? = some c
          ∧ env.chatComplete c = .error e
          ∧ (handleAnalyzeAudio env req d).1 = errorEnvelope e req d) := by
  have hfree := findFree_of_listingEmpty env hle
  rcases handle_cases env req d with ⟨hu, h⟩ | ⟨u, e', tr, hu, hf, h⟩ |
    ⟨u, buf, tr, hu, hf, hrest⟩
  · rw [h] at hmem
    exact absurd hmem (List.not_mem_nil _)
  · obtain ⟨-, hcl, -⟩ := fetch_tr_counts env u _ tr hf
    rw [h] at hmem
    exact absurd hmem (not_listing_mem tr hcl)
  · obtain ⟨hcm, hcl, -⟩ := fetch_tr_counts env u _ tr hf
    rcases hrest with ⟨c, hc, h⟩ | ⟨e1, hc, hrest⟩
    · rw [h] at hmem
      simp only [List.mem_append] at hmem
      rcases hmem with hmem | hmem
      · exact absurd hmem (not_listing_mem tr hcl)
      · simp at hmem
    · rcases hrest with ⟨b, c, hb, hcb, h⟩ | ⟨b, e2, hb, hcb, hrest⟩ | ⟨hb, hrest⟩
      · rw [h] at hmem
        simp only [List.mem_append] at hmem
        rcases hmem with hmem | hmem
        · exact absurd hmem (not_listing_mem tr hcl)
        · simp at hmem
      · obtain ⟨hbne, hbtruthy⟩ := backupCandidate_spec env _ b hb
        have hfb : jsOr env.backupEnv DEFAULT_AUDIO_MODEL = b := by
          unfold jsOr
          rw [hbtruthy]
          rfl
        rcases hrest with ⟨hne, hnm, hnb, -⟩ | ⟨hcnd, h⟩
        · exact absurd (hfree.trans hfb) hnb
        · constructor
          · intro m hm
            rw [h] at hm
            simp only [List.mem_append] at hm
            rcases hm with hm | hm
            · exact absurd hm (not_completion_mem tr hcm m)
            · left
              rw [explicitCandidates_some env req d b hb]
              simp only [List.mem_cons, List.mem_singleton] at hm ⊢
              rcases hm with hm | hm | hm | hm
              · exact Or.inl (by injection hm)
              · exact Or.inr (Or.inl (by injection hm))
              · exact absurd hm (by simp)
              · exact absurd hm (by simp)
          · intro _
            refine ⟨b, e2, ?_, hcb, ?_⟩
            · rw [explicitCandidates_some env req d b hb]
              rfl
            · rw [h]
      · rcases hrest with ⟨hne, hnm, ⟨c3, hcf, h⟩ | ⟨e3, hcf, h⟩⟩ | ⟨hcnd, h⟩
        · constructor
          · intro m hm
            rw [h] at hm
            simp only [List.mem_append] at hm
            rcases hm with hm | hm
            · exact absurd hm (not_completion_mem tr hcm m)
            · simp only [List.mem_cons, List.mem_singleton] at hm
              rcases hm with hm | hm | hm | hm
              · left
                rw [explicitCandidates_none env req d hb]
                exact List.mem_singleton.mpr (by injection hm)
              · exact absurd hm (by simp)
              · right
                rw [← hfree]
                injection hm
              · exact absurd hm (by simp)
          · intro hfbm
            rw [explicitCandidates_none env req d hb] at hfbm
            have : jsOr env.backupEnv DEFAULT_AUDIO_MODEL = selectModel req.model d :=
              List.mem_singleton.mp hfbm
            exact absurd (hfree.trans this) hnm
        · constructor
          · intro m hm
            rw [h] at hm
            simp only [List.mem_append] at hm
            rcases hm with hm | hm
            · exact absurd hm (not_completion_mem tr hcm m)
            · simp only [List.mem_cons, List.mem_singleton] at hm
              rcases hm with hm | hm | hm | hm
              · left
                rw [explicitCandidates_none env req d hb]
                exact List.mem_singleton.mpr (by injection hm)
              · exact absurd hm (by simp)
              · right
                rw [← hfree]
                injection hm
              · exact absurd hm (by simp)
          · intro hfbm
            rw [explicitCandidates_none env req d hb] at hfbm
            have : jsOr env.backupEnv DEFAULT_AUDIO_MODEL = selectModel req.model d :=
              List.mem_singleton.mp hfbm
            exact absurd (hfree.trans this) hnm
        · have hfne : (findSuitableFreeAudioModel env).1 ≠ "" := by
            rw [hfree]
            exact jsOr_default_ne_empty _
          have hfm : (findSuitableFreeAudioModel env).1 = selectModel req.model d := by
            by_contra hne
            exact hcnd ⟨hfne, hne⟩
          constructor
          · intro m hm
            rw [h] at hm
            simp only [List.mem_append] at hm
            rcases hm with hm | hm
            · exact absurd hm (not_completion_mem tr hcm m)
            · simp only [List.mem_cons, List.mem_singleton] at hm
              rcases hm with hm | hm
              · left
                rw [explicitCandidates_none env req d hb]
                exact List.mem_singleton.mpr (by injection hm)
              · exact absurd hm (by simp)
          · intro _
            refine ⟨selectModel req.model d, e1, ?_, hc, ?_⟩
            · rw [explicitCandidates_none env req d hb]
              rfl
            · rw [h]

/-- C1 witness for the amended claim: in the counterexample environment
(listing failed, no backup), the model the handler escalated to is
exactly the discovery fallback `backupEnv || DEFAULT_AUDIO_MODEL`. -/
theorem c1_witness :
    DEFAULT_AUDIO_MODEL ∈ explicitCandidates envC1 reqC1 none
    ∨ DEFAULT_AUDIO_MODEL = jsOr envC1.backupEnv DEFAULT_AUDIO_MODEL :=
  (c1_amended envC1 reqC1 none rfl (by decide)).1 DEFAULT_AUDIO_MODEL (by decide)

end AnalyzeAudio
